import Mathlib

/-!
Shallow embedding of `notify-future` (src/src/lib.rs), a one-shot
single-producer/single-consumer notification primitive.

The Rust code keeps a shared `Arc<Mutex<NotifyFutureState<RESULT>>>`.
Here the record guarded by the mutex is embedded as a plain structure and
every operation is a pure function on it.  Operations that call `wake()`
after releasing the lock additionally return the list of wakers they
invoke (in invocation order); operations that can panic return
`Except String` carrying the Rust panic message.  The mutex itself (with
its poison flag) is embedded separately for the `lock_state` claims.
-/

/-- Embeds `std::task::Waker`: an opaque resumption token.  Distinct tasks
get distinct ids; `will_wake` compares whether two wakers would wake the
same task, as the Rust method does. -/
structure Waker where
  id : Nat
deriving Repr, DecidableEq

/-- Embeds `Waker::will_wake`: true iff the two wakers wake the same task. -/
def Waker.will_wake (a b : Waker) : Bool :=
  a.id == b.id

/-- Embeds `Poll` from `std::task`. -/
inductive Poll (R : Type) where
  | Ready (r : R)
  | Pending
deriving Repr, DecidableEq

/-- Embeds `NotifyFutureState<RESULT>` (lib.rs lines 6-11): the record
guarded by the single mutex. -/
structure NotifyFutureState (R : Type) where
  waker : Option Waker
  result : Option R
  is_completed : Bool
  is_canceled : Bool
deriving Repr, DecidableEq

/-- Embeds `NotifyFutureState::new` (lib.rs lines 14-21): the empty
initial state placed inside the freshly allocated mutex. -/
def NotifyFutureState.new (R : Type) : NotifyFutureState R :=
  { waker := none, result := none, is_completed := false, is_canceled := false }

/-- Embeds `NotifyFutureState::set_complete` (lib.rs lines 23-38).
Returns the state after the critical section together with the list of
wakers invoked after the lock is released (`[]` or a singleton). -/
def NotifyFutureState.set_complete (s : NotifyFutureState R) (result : R) :
    NotifyFutureState R × List Waker :=
  if s.is_completed || s.is_canceled then
    (s, [])
  else
    let captured := s.waker
    let s := { s with result := some result, is_completed := true, waker := none }
    match captured with
    | some w => (s, [w])
    | none => (s, [])

/-- Embeds `<NotifyWaiter as Future>::poll` (lib.rs lines 146-157).
The first component is the poll outcome (`Except.error` embeds the panic
of `state.result.take().unwrap()` on a missing value, carrying the Rust
panic message); the second is the state left behind in the mutex. -/
def NotifyWaiter.poll (s : NotifyFutureState R) (cx : Waker) :
    Except String (Poll R) × NotifyFutureState R :=
  if s.is_completed then
    match s.result with
    | some r => (Except.ok (Poll.Ready r), { s with result := none })
    | none => (Except.error "called `Option::unwrap()` on a `None` value", s)
  else
    if (match s.waker with
        | none => true
        | some w => !(w.will_wake cx)) then
      (Except.ok Poll.Pending, { s with waker := some cx })
    else
      (Except.ok Poll.Pending, s)

/-- Embeds `<NotifyFuture as Future>::poll` (lib.rs lines 83-98), the
legacy combined handle.  Identical to `NotifyWaiter.poll` except for the
explicit panic message on a second await. -/
def NotifyFuture.poll (s : NotifyFutureState R) (cx : Waker) :
    Except String (Poll R) × NotifyFutureState R :=
  if s.is_completed then
    match s.result with
    | some r => (Except.ok (Poll.Ready r), { s with result := none })
    | none =>
      (Except.error "NotifyFuture was awaited by more than one task. Use Notify::new() instead", s)
  else
    if (match s.waker with
        | none => true
        | some w => !(w.will_wake cx)) then
      (Except.ok Poll.Pending, { s with waker := some cx })
    else
      (Except.ok Poll.Pending, s)

/-- Embeds `<NotifyWaiter as Drop>::drop` (lib.rs lines 133-141): takes
the waker out, then marks cancellation when not completed. -/
def NotifyWaiter.drop (s : NotifyFutureState R) : NotifyFutureState R :=
  let s := { s with waker := none }
  if !s.is_completed then { s with is_canceled := true } else s

/-- Embeds dropping a `NotifyFuture` handle or one of its clones.
`NotifyFuture` has no `Drop` implementation in the source (lib.rs lines
49-77 declare only `Clone`, `new`, `set_complete` and `Future`), so
dropping it runs only the compiler-generated glue that releases the
`Arc` reference; the shared state is not touched. -/
def NotifyFuture.drop (s : NotifyFutureState R) : NotifyFutureState R :=
  s

/-- Embeds `<NotifyFuture as Clone>::clone` (lib.rs lines 58-64): clones
the `Arc`, leaving the shared state untouched. -/
def NotifyFuture.clone (s : NotifyFutureState R) : NotifyFutureState R :=
  s

/-- Embeds the mutex cell of `Arc<Mutex<NotifyFutureState<R>>>` together
with its poison flag: `poisoned` is true when a previous holder panicked
while holding the lock. -/
structure PMutex (R : Type) where
  poisoned : Bool
  data : NotifyFutureState R
deriving Repr, DecidableEq

/-- Embeds `Mutex::lock`: returns `Err(PoisonError)` when the mutex is
poisoned, `Ok(guard)` otherwise.  The `PoisonError` still carries the
guard, retrievable with `into_inner`; here the error payload IS that
guard. -/
def PMutex.lock (m : PMutex R) : Except (NotifyFutureState R) (NotifyFutureState R) :=
  if m.poisoned then Except.error m.data else Except.ok m.data

/-- Embeds `lock_state` (lib.rs lines 45-47):
`state.lock().unwrap_or_else(|poisoned| poisoned.into_inner())`. -/
def lock_state (m : PMutex R) : NotifyFutureState R :=
  match m.lock with
  | Except.ok g => g
  | Except.error p => p

/-- Embeds `NotifyFutureState::set_complete` at the mutex level: the
source function receives the `Arc<Mutex<..>>` and acquires the lock
through `lock_state` before running the critical section. -/
def set_complete_m (m : PMutex R) (result : R) : NotifyFutureState R × List Waker :=
  NotifyFutureState.set_complete (lock_state m) result

/-- Embeds `NotifyWaiter::poll` at the mutex level. -/
def NotifyWaiter.poll_m (m : PMutex R) (cx : Waker) :
    Except String (Poll R) × NotifyFutureState R :=
  NotifyWaiter.poll (lock_state m) cx

/-- Embeds `NotifyFuture::poll` at the mutex level. -/
def NotifyFuture.poll_m (m : PMutex R) (cx : Waker) :
    Except String (Poll R) × NotifyFutureState R :=
  NotifyFuture.poll (lock_state m) cx

/-- Embeds `Notify::is_canceled` (lib.rs lines 116-118):
`lock_state(&self.state).is_canceled()`. -/
def Notify.is_canceled (m : PMutex R) : Bool :=
  (lock_state m).is_canceled

/-- Embeds `<NotifyWaiter as Drop>::drop` at the mutex level. -/
def NotifyWaiter.drop_m (m : PMutex R) : NotifyFutureState R :=
  NotifyWaiter.drop (lock_state m)

/-- Embeds `Notify::notify` (lib.rs lines 112-114): delegates to
`NotifyFutureState::set_complete`. -/
def Notify.notify (s : NotifyFutureState R) (result : R) :
    NotifyFutureState R × List Waker :=
  NotifyFutureState.set_complete s result

/-- Applies a sequence of `set_complete` calls with the given values, in
order, to a state. -/
def completesFrom (s : NotifyFutureState R) : List R → NotifyFutureState R
  | [] => s
  | v :: vs => completesFrom (s.set_complete v).1 vs

/-- The operations that mutate the shared state. -/
inductive Op (R : Type) where
  | complete (v : R)
  | waiterPoll (cx : Waker)
  | futurePoll (cx : Waker)
  | waiterDrop
deriving Repr, DecidableEq

/-- One operation applied to the shared state (the state a panicking poll
leaves behind is the state the mutex holds afterwards). -/
def Op.step (s : NotifyFutureState R) : Op R → NotifyFutureState R
  | Op.complete v => (s.set_complete v).1
  | Op.waiterPoll cx => (NotifyWaiter.poll s cx).2
  | Op.futurePoll cx => (NotifyFuture.poll s cx).2
  | Op.waiterDrop => NotifyWaiter.drop s

/-- A sequence of operations applied in order. -/
def Op.run (s : NotifyFutureState R) : List (Op R) → NotifyFutureState R
  | [] => s
  | op :: ops => Op.run (Op.step s op) ops

/-- The operations available through the legacy `NotifyFuture` API
surface: `set_complete`, `poll`, `clone` and dropping a handle. -/
inductive LegacyOp (R : Type) where
  | setComplete (v : R)
  | poll (cx : Waker)
  | clone
  | drop
deriving Repr, DecidableEq

/-- One legacy operation applied to the shared state. -/
def LegacyOp.step (s : NotifyFutureState R) : LegacyOp R → NotifyFutureState R
  | LegacyOp.setComplete v => (s.set_complete v).1
  | LegacyOp.poll cx => (NotifyFuture.poll s cx).2
  | LegacyOp.clone => NotifyFuture.clone s
  | LegacyOp.drop => NotifyFuture.drop s

/-- A sequence of legacy operations applied in order. -/
def LegacyOp.run (s : NotifyFutureState R) : List (LegacyOp R) → NotifyFutureState R
  | [] => s
  | op :: ops => LegacyOp.run (LegacyOp.step s op) ops

/-- Modelled from the spec: `register_waiter(waker)` stores the supplied
waker exactly when no waker is stored or the stored waker would not wake
the same logical task; otherwise the stored waker is kept.  Used to state
that both poll implementations follow this policy. -/
def register_waiter_spec (old : Option Waker) (cx : Waker) : Option Waker :=
  match old with
  | none => some cx
  | some w => if w.will_wake cx then some w else some cx

/-! ## Helper lemmas -/

theorem lock_state_eq (m : PMutex R) : lock_state m = m.data := by
  cases m with
  | mk p d => cases p <;> rfl

theorem set_complete_of_completed (s : NotifyFutureState R) (v : R)
    (h : s.is_completed = true) : s.set_complete v = (s, []) := by
  simp [NotifyFutureState.set_complete, h]

theorem set_complete_of_canceled (s : NotifyFutureState R) (v : R)
    (h : s.is_canceled = true) : s.set_complete v = (s, []) := by
  simp [NotifyFutureState.set_complete, h]

theorem completesFrom_of_completed (s : NotifyFutureState R) (h : s.is_completed = true) :
    ∀ vs : List R, completesFrom s vs = s
  | [] => rfl
  | v :: vs => by
    rw [completesFrom, set_complete_of_completed s v h]
    exact completesFrom_of_completed s h vs

theorem completesFrom_of_canceled (s : NotifyFutureState R) (h : s.is_canceled = true) :
    ∀ vs : List R, completesFrom s vs = s
  | [] => rfl
  | v :: vs => by
    rw [completesFrom, set_complete_of_canceled s v h]
    exact completesFrom_of_canceled s h vs

theorem set_complete_flags (s : NotifyFutureState R) (v : R) :
    (s.set_complete v).1.is_completed = (s.is_completed || !s.is_canceled)
    ∧ (s.set_complete v).1.is_canceled = s.is_canceled := by
  cases hc : s.is_completed <;> cases hk : s.is_canceled <;> cases hw : s.waker <;>
    simp [NotifyFutureState.set_complete, hc, hk, hw]

theorem waiterPoll_flags (s : NotifyFutureState R) (cx : Waker) :
    (NotifyWaiter.poll s cx).2.is_completed = s.is_completed
    ∧ (NotifyWaiter.poll s cx).2.is_canceled = s.is_canceled := by
  unfold NotifyWaiter.poll
  cases hc : s.is_completed <;> cases hr : s.result <;> simp [hc, hr] <;> split <;> simp [hc]

theorem futurePoll_flags (s : NotifyFutureState R) (cx : Waker) :
    (NotifyFuture.poll s cx).2.is_completed = s.is_completed
    ∧ (NotifyFuture.poll s cx).2.is_canceled = s.is_canceled := by
  unfold NotifyFuture.poll
  cases hc : s.is_completed <;> cases hr : s.result <;> simp [hc, hr] <;> split <;> simp [hc]

theorem drop_flags (s : NotifyFutureState R) :
    (NotifyWaiter.drop s).is_completed = s.is_completed
    ∧ (NotifyWaiter.drop s).is_canceled = (s.is_canceled || !s.is_completed) := by
  cases hc : s.is_completed <;> simp [NotifyWaiter.drop, hc]

/-! ## Claim theorems -/

/-- C1.  First-write-wins single delivery: applying any sequence of
`set_complete` calls with values `v :: vs` to the empty initial state
yields the state whose stored result is `v` with `is_completed` set,
independently of `vs`; a further `set_complete` leaves that state
unchanged and wakes nobody; and a consumer poll of that state resolves
to `v`. -/
theorem single_delivery_first_write_wins (R : Type) (v : R) (vs : List R) (w : R) (cx : Waker) :
    completesFrom (NotifyFutureState.new R) (v :: vs)
      = { waker := none, result := some v, is_completed := true, is_canceled := false }
    ∧ (completesFrom (NotifyFutureState.new R) (v :: vs)).set_complete w
      = (completesFrom (NotifyFutureState.new R) (v :: vs), [])
    ∧ NotifyWaiter.poll (completesFrom (NotifyFutureState.new R) (v :: vs)) cx
      = (Except.ok (Poll.Ready v),
         { waker := none, result := none, is_completed := true, is_canceled := false }) := by
  have hfirst : completesFrom (NotifyFutureState.new R) (v :: vs)
      = ({ waker := none, result := some v, is_completed := true, is_canceled := false } :
          NotifyFutureState R) := by
    rw [completesFrom]
    have h1 : ((NotifyFutureState.new R).set_complete v).1
        = ({ waker := none, result := some v, is_completed := true, is_canceled := false } :
            NotifyFutureState R) := by
      simp [NotifyFutureState.new, NotifyFutureState.set_complete]
    rw [h1]
    exact completesFrom_of_completed _ rfl vs
  refine ⟨hfirst, ?_, ?_⟩
  · rw [hfirst]
    exact set_complete_of_completed _ w rfl
  · rw [hfirst]
    simp [NotifyWaiter.poll]

/-- C4.  No resurrection after cancellation: a `set_complete` call on a
canceled state returns with every field of the state unchanged and
invokes no waker. -/
theorem no_resurrection_after_cancel (R : Type) (s : NotifyFutureState R) (v : R)
    (h : s.is_canceled = true) : s.set_complete v = (s, []) := by
  simp [NotifyFutureState.set_complete, h]

/-- C4 witness at a concrete canceled state. -/
theorem no_resurrection_after_cancel_witness :
    (⟨none, none, false, true⟩ : NotifyFutureState Nat).is_canceled = true
    ∧ (⟨none, none, false, true⟩ : NotifyFutureState Nat).set_complete 7
      = (⟨none, none, false, true⟩, []) :=
  ⟨rfl, no_resurrection_after_cancel Nat ⟨none, none, false, true⟩ 7 rfl⟩

/-- C7.  No lost wake-up: `set_complete` on a state that is neither
completed nor canceled stores the value, sets `is_completed`, clears the
stored waker, and the list of wakers invoked after the lock is released
is exactly the captured waker (a singleton when one was registered,
empty otherwise). -/
theorem complete_wakes_captured_waker_once (R : Type) (s : NotifyFutureState R) (v : R)
    (h1 : s.is_completed = false) (h2 : s.is_canceled = false) :
    s.set_complete v
      = ({ s with result := some v, is_completed := true, waker := none }, s.waker.toList) := by
  cases hw : s.waker <;> simp [NotifyFutureState.set_complete, h1, h2, hw]

/-- C7 witness at a concrete empty state holding a registered waker. -/
theorem complete_wakes_captured_waker_once_witness :
    (⟨some ⟨3⟩, none, false, false⟩ : NotifyFutureState Nat).is_completed = false
    ∧ (⟨some ⟨3⟩, none, false, false⟩ : NotifyFutureState Nat).is_canceled = false
    ∧ (⟨some ⟨3⟩, none, false, false⟩ : NotifyFutureState Nat).set_complete 42
      = (⟨none, some 42, true, false⟩, [⟨3⟩]) :=
  ⟨rfl, rfl, complete_wakes_captured_waker_once Nat ⟨some ⟨3⟩, none, false, false⟩ 42 rfl rfl⟩

/-- C3.  Disposal cancels exactly when incomplete: dropping the waiter
always clears the stored waker; when the flags are not both set (as in
every reachable state) the dropped state is canceled exactly when it was
not completed; and after dropping the waiter of a fresh pair, any
sequence of later `set_complete` calls leaves `is_canceled` true, as
`Notify::is_canceled` reports through the lock. -/
theorem waiter_drop_cancels_iff_incomplete (R : Type) (s : NotifyFutureState R)
    (ws : List R) (b : Bool)
    (h : ¬(s.is_completed = true ∧ s.is_canceled = true)) :
    (NotifyWaiter.drop s).waker = none
    ∧ (NotifyWaiter.drop s).is_canceled = !s.is_completed
    ∧ (completesFrom (NotifyWaiter.drop (NotifyFutureState.new R)) ws).is_canceled = true
    ∧ Notify.is_canceled
        ⟨b, completesFrom (NotifyWaiter.drop (NotifyFutureState.new R)) ws⟩ = true := by
  have hafter : completesFrom (NotifyWaiter.drop (NotifyFutureState.new R)) ws
      = NotifyWaiter.drop (NotifyFutureState.new R) :=
    completesFrom_of_canceled _ rfl ws
  refine ⟨?_, ?_, ?_, ?_⟩
  · cases hc : s.is_completed <;> simp [NotifyWaiter.drop, hc]
  · cases hc : s.is_completed
    · simp [NotifyWaiter.drop, hc]
    · have hk : s.is_canceled = false := by
        cases hk : s.is_canceled
        · rfl
        · exact absurd ⟨hc, hk⟩ h
      simp [NotifyWaiter.drop, hc, hk]
  · rw [hafter]; rfl
  · rw [Notify.is_canceled, lock_state_eq, hafter]; rfl

/-- C3 witness: a concrete incomplete state whose drop is canceled, with
two later completes kept invisible by cancellation. -/
theorem waiter_drop_cancels_iff_incomplete_witness :
    ¬((⟨some ⟨1⟩, none, false, false⟩ : NotifyFutureState Nat).is_completed = true
        ∧ (⟨some ⟨1⟩, none, false, false⟩ : NotifyFutureState Nat).is_canceled = true)
    ∧ ((NotifyWaiter.drop (⟨some ⟨1⟩, none, false, false⟩ : NotifyFutureState Nat)).waker = none
        ∧ (NotifyWaiter.drop (⟨some ⟨1⟩, none, false, false⟩ :
            NotifyFutureState Nat)).is_canceled
          = !(⟨some ⟨1⟩, none, false, false⟩ : NotifyFutureState Nat).is_completed
        ∧ (completesFrom (NotifyWaiter.drop (NotifyFutureState.new Nat)) [3, 4]).is_canceled
          = true
        ∧ Notify.is_canceled
            ⟨true, completesFrom (NotifyWaiter.drop (NotifyFutureState.new Nat)) [3, 4]⟩
          = true) :=
  ⟨by decide,
   waiter_drop_cancels_iff_incomplete Nat ⟨some ⟨1⟩, none, false, false⟩ [3, 4] true
     (by decide)⟩

/-- A step of any operation keeps `is_completed` and `is_canceled` from
being simultaneously true. -/
theorem step_preserves_not_both (s : NotifyFutureState R) (op : Op R)
    (h : ¬(s.is_completed = true ∧ s.is_canceled = true)) :
    ¬((Op.step s op).is_completed = true ∧ (Op.step s op).is_canceled = true) := by
  cases op with
  | complete v =>
    have hf := set_complete_flags s v
    rw [Op.step, hf.1, hf.2]
    cases hc : s.is_completed <;> cases hk : s.is_canceled <;> simp_all
  | waiterPoll cx =>
    have hf := waiterPoll_flags s cx
    rw [Op.step, hf.1, hf.2]
    exact h
  | futurePoll cx =>
    have hf := futurePoll_flags s cx
    rw [Op.step, hf.1, hf.2]
    exact h
  | waiterDrop =>
    have hf := drop_flags s
    rw [Op.step, hf.1, hf.2]
    cases hc : s.is_completed <;> cases hk : s.is_canceled <;> simp_all

/-- Running any operation sequence keeps the two flags from being
simultaneously true. -/
theorem run_preserves_not_both (s : NotifyFutureState R)
    (h : ¬(s.is_completed = true ∧ s.is_canceled = true)) :
    ∀ ops : List (Op R),
      ¬((Op.run s ops).is_completed = true ∧ (Op.run s ops).is_canceled = true)
  | [] => h
  | op :: ops => by
    rw [Op.run]
    exact run_preserves_not_both (Op.step s op) (step_preserves_not_both s op h) ops

/-- C5.  Mutual-exclusion invariant of the terminal flags: in every state
reachable from the empty initial state by `set_complete`, either poll,
and waiter drop, `is_completed` and `is_canceled` are not both true. -/
theorem completed_canceled_mutually_exclusive (R : Type) (ops : List (Op R)) :
    ¬((Op.run (NotifyFutureState.new R) ops).is_completed = true
      ∧ (Op.run (NotifyFutureState.new R) ops).is_canceled = true) :=
  run_preserves_not_both (NotifyFutureState.new R) (by simp [NotifyFutureState.new]) ops

/-- A step of any operation never lowers `is_completed` or `is_canceled`
(in the Bool order `false < true`). -/
theorem step_mono (s : NotifyFutureState R) (op : Op R) :
    s.is_completed ≤ (Op.step s op).is_completed
    ∧ s.is_canceled ≤ (Op.step s op).is_canceled := by
  cases op with
  | complete v =>
    have hf := set_complete_flags s v
    rw [Op.step, hf.1, hf.2]
    cases s.is_completed <;> cases s.is_canceled <;> exact ⟨by decide, by decide⟩
  | waiterPoll cx =>
    have hf := waiterPoll_flags s cx
    rw [Op.step, hf.1, hf.2]
    exact ⟨le_refl _, le_refl _⟩
  | futurePoll cx =>
    have hf := futurePoll_flags s cx
    rw [Op.step, hf.1, hf.2]
    exact ⟨le_refl _, le_refl _⟩
  | waiterDrop =>
    have hf := drop_flags s
    rw [Op.step, hf.1, hf.2]
    cases s.is_completed <;> cases s.is_canceled <;> exact ⟨by decide, by decide⟩

/-- Running any operation sequence never lowers either terminal flag. -/
theorem run_mono (s : NotifyFutureState R) :
    ∀ ops : List (Op R),
      s.is_completed ≤ (Op.run s ops).is_completed
      ∧ s.is_canceled ≤ (Op.run s ops).is_canceled
  | [] => ⟨le_refl _, le_refl _⟩
  | op :: ops => by
    rw [Op.run]
    have h1 := step_mono s op
    have h2 := run_mono (Op.step s op) ops
    exact ⟨le_trans h1.1 h2.1, le_trans h1.2 h2.2⟩

/-- C6.  Monotonic terminal transitions: along any operation sequence,
once `is_completed` is true it stays true and once `is_canceled` is true
it stays true (stated as monotonicity in the Bool order `false < true`
from an arbitrary starting state). -/
theorem terminal_flags_monotone (R : Type) (s : NotifyFutureState R) (ops : List (Op R)) :
    s.is_completed ≤ (Op.run s ops).is_completed
    ∧ s.is_canceled ≤ (Op.run s ops).is_canceled :=
  run_mono s ops

/-- C2.  Exactly-once resolution is a hard error: once a poll has
resolved and yielded the value, a second poll of the state it left
behind deterministically panics — through `unwrap` on the split
`NotifyWaiter` and through the explicit panic on the legacy
`NotifyFuture` — leaving the state unchanged; it neither returns a value
nor stays pending. -/
theorem second_resolve_panics (R : Type) (s s₁ s₂ : NotifyFutureState R) (v : R)
    (c₁ c₂ c₃ c₄ : Waker)
    (hw : NotifyWaiter.poll s c₁ = (Except.ok (Poll.Ready v), s₁))
    (hf : NotifyFuture.poll s c₂ = (Except.ok (Poll.Ready v), s₂)) :
    NotifyWaiter.poll s₁ c₃
      = (Except.error "called `Option::unwrap()` on a `None` value", s₁)
    ∧ NotifyFuture.poll s₂ c₄
      = (Except.error
           "NotifyFuture was awaited by more than one task. Use Notify::new() instead",
         s₂) := by
  cases hc : s.is_completed
  · exfalso
    simp [NotifyWaiter.poll, hc] at hw
    split at hw <;> simp at hw
  · cases hr : s.result
    · exfalso
      simp [NotifyWaiter.poll, hc, hr] at hw
    · simp [NotifyWaiter.poll, hc, hr] at hw
      simp [NotifyFuture.poll, hc, hr] at hf
      obtain ⟨hv, hs1⟩ := hw
      obtain ⟨hv2, hs2⟩ := hf
      subst hs1
      subst hs2
      constructor
      · simp [NotifyWaiter.poll, hc]
      · simp [NotifyFuture.poll, hc]

/-- C2 witness: a completed state holding value 5 resolves once, and the
second poll of either consumer variant panics. -/
theorem second_resolve_panics_witness :
    NotifyWaiter.poll (⟨none, some 5, true, false⟩ : NotifyFutureState Nat) ⟨0⟩
      = (Except.ok (Poll.Ready 5), ⟨none, none, true, false⟩)
    ∧ NotifyFuture.poll (⟨none, some 5, true, false⟩ : NotifyFutureState Nat) ⟨0⟩
      = (Except.ok (Poll.Ready 5), ⟨none, none, true, false⟩)
    ∧ (NotifyWaiter.poll (⟨none, none, true, false⟩ : NotifyFutureState Nat) ⟨1⟩
        = (Except.error "called `Option::unwrap()` on a `None` value",
           ⟨none, none, true, false⟩)
      ∧ NotifyFuture.poll (⟨none, none, true, false⟩ : NotifyFutureState Nat) ⟨1⟩
        = (Except.error
             "NotifyFuture was awaited by more than one task. Use Notify::new() instead",
           ⟨none, none, true, false⟩)) :=
  ⟨rfl, rfl,
   second_resolve_panics Nat ⟨none, some 5, true, false⟩ ⟨none, none, true, false⟩
     ⟨none, none, true, false⟩ 5 ⟨0⟩ ⟨0⟩ ⟨1⟩ ⟨1⟩ rfl rfl⟩

/-- C8.  Waker registration policy: on any poll of a not-yet-completed
state, both consumer implementations return `Pending` and leave the
stored waker exactly as `register_waiter_spec` prescribes — the supplied
waker is stored when none is held or the held one would not wake the
same task, and otherwise the held one is kept; the `Option` field holds
at most one waker, so storing replaces rather than queues. -/
theorem waker_registration_policy (R : Type) (s : NotifyFutureState R) (cx : Waker)
    (h : s.is_completed = false) :
    NotifyWaiter.poll s cx
      = (Except.ok Poll.Pending, { s with waker := register_waiter_spec s.waker cx })
    ∧ NotifyFuture.poll s cx
      = (Except.ok Poll.Pending, { s with waker := register_waiter_spec s.waker cx }) := by
  cases hw : s.waker with
  | none =>
    simp [NotifyWaiter.poll, NotifyFuture.poll, register_waiter_spec, h, hw]
  | some w =>
    cases hww : w.will_wake cx
    · simp [NotifyWaiter.poll, NotifyFuture.poll, register_waiter_spec, h, hw, hww]
    · have hs : ({ s with waker := some w } : NotifyFutureState R) = s := by
        cases s
        simp_all
      rw [h] at hs
      simp [NotifyWaiter.poll, NotifyFuture.poll, register_waiter_spec, h, hw, hww]
      exact hs.symm

/-- C8 witness: polling an incomplete state holding the waker of task 1
with the waker of task 2 replaces it and stays pending. -/
theorem waker_registration_policy_witness :
    (⟨some ⟨1⟩, none, false, false⟩ : NotifyFutureState Nat).is_completed = false
    ∧ (NotifyWaiter.poll (⟨some ⟨1⟩, none, false, false⟩ : NotifyFutureState Nat) ⟨2⟩
        = (Except.ok Poll.Pending, ⟨some ⟨2⟩, none, false, false⟩)
      ∧ NotifyFuture.poll (⟨some ⟨1⟩, none, false, false⟩ : NotifyFutureState Nat) ⟨2⟩
        = (Except.ok Poll.Pending, ⟨some ⟨2⟩, none, false, false⟩)) :=
  ⟨rfl, waker_registration_policy Nat ⟨some ⟨1⟩, none, false, false⟩ ⟨2⟩ rfl⟩

/-- C9.  Poisoned-lock recovery: `lock_state` yields the guarded data for
every mutex, poisoned or not, and therefore each mutex-level entry point
(`set_complete`, both polls, `Notify::is_canceled`, the waiter drop)
behaves exactly as its critical section does on the guarded data; no
panic or error is propagated from a poisoned lock. -/
theorem poisoned_lock_recovered (R : Type) (m : PMutex R) (v : R) (cx : Waker) :
    lock_state m = m.data
    ∧ set_complete_m m v = m.data.set_complete v
    ∧ NotifyWaiter.poll_m m cx = NotifyWaiter.poll m.data cx
    ∧ NotifyFuture.poll_m m cx = NotifyFuture.poll m.data cx
    ∧ Notify.is_canceled m = m.data.is_canceled
    ∧ NotifyWaiter.drop_m m = NotifyWaiter.drop m.data := by
  refine ⟨lock_state_eq m, ?_, ?_, ?_, ?_, ?_⟩ <;>
    simp [set_complete_m, NotifyWaiter.poll_m, NotifyFuture.poll_m, Notify.is_canceled,
      NotifyWaiter.drop_m, lock_state_eq]

/-- A legacy-API operation never changes `is_canceled`. -/
theorem legacyStep_canceled (s : NotifyFutureState R) (op : LegacyOp R) :
    (LegacyOp.step s op).is_canceled = s.is_canceled := by
  cases op with
  | setComplete v =>
    rw [LegacyOp.step]
    exact (set_complete_flags s v).2
  | poll cx =>
    rw [LegacyOp.step]
    exact (futurePoll_flags s cx).2
  | clone => rfl
  | drop => rfl

/-- A legacy-API operation sequence never changes `is_canceled`. -/
theorem legacyRun_canceled (s : NotifyFutureState R) :
    ∀ ops : List (LegacyOp R), (LegacyOp.run s ops).is_canceled = s.is_canceled
  | [] => rfl
  | op :: ops => by
    rw [LegacyOp.run, legacyRun_canceled (LegacyOp.step s op) ops, legacyStep_canceled]

/-- C10.  The legacy `NotifyFuture` has no disposal-time cancellation:
dropping a handle (or a clone) leaves the shared state unchanged, no
legacy operation (`set_complete`, `poll`, `clone`, `drop`) ever changes
`is_canceled`, and along any legacy operation sequence from a fresh
state `is_canceled` stays false. -/
theorem legacy_handle_never_cancels (R : Type) (s : NotifyFutureState R)
    (op : LegacyOp R) (ops : List (LegacyOp R)) :
    NotifyFuture.drop s = s
    ∧ (LegacyOp.step s op).is_canceled = s.is_canceled
    ∧ (LegacyOp.run (NotifyFutureState.new R) ops).is_canceled = false :=
  ⟨rfl, legacyStep_canceled s op, by rw [legacyRun_canceled]; rfl⟩
